import Mathlib

/-!
Verification of `finetune/core/datasets/blended_megatron_dataset_builder.py`.

The builder combines three pieces: a weight allocator
(`_get_prefixes_weights_and_sizes_for_blend`), a split indexer (the
`split_indices` computation inside `_build_megatron_dataset_splits`), and a
rank coordinator (`build_generic_dataset`), orchestrated by
`_build_blended_dataset_splits`.

Modelling conventions:
- Python floats are embedded as rationals (`ℚ`), Python ints as `ℤ`/`ℕ`.
- Python exceptions are embedded as `Except BuildError`; an exception kind is
  one `BuildError` constructor.
- `torch.distributed` state is passed explicitly: whether a process group is
  initialized, the current rank, and the value of the
  `config.is_built_on_rank()` predicate on this rank.  The constructor calls
  and barrier waits performed by `build_generic_dataset` on this rank are
  recorded as an ordered `TraceEvent` list.
- The memory-mapped indexed dataset is an external collaborator: its element
  count (sequence count or document count, chosen by the class's
  `is_split_by_sequence` classification) is supplied by a `BuildEnv`
  environment mapping a path prefix to the count its handle reports.
- Python truthiness of `config.blend` / `config.blend_per_split[i]` (both
  `None` and the empty list are falsy) is modelled by the empty list.
-/

namespace Blended

/-- Modelled from the spec: the `Split` enumeration (from `core.datasets.utils`,
which is not under src/) is an ordered set of named partitions — Train,
Validation, Test — of fixed cardinality, used positionally to index parallel
arrays, so `len(Split) = 3`. -/
def numSplits : ℕ := 3

/-- A filesystem error raised by a dataset constructor (Python `OSError`). -/
structure OSErr where
  msg : String
  deriving DecidableEq, Repr

/-- Exceptions escaping the builder code. -/
inductive BuildError where
  /-- Python `AssertionError` from the null-consistency asserts
  (lines 103 and 106 of the source). -/
  | assertionFailure
  /-- Python `IndexError` from `blend[i + 1]` when pairing an odd-length
  blend list (line 297 of the source). -/
  | indexOutOfRange
  /-- Python `ValueError` from unpacking `zip(*[])` when the blend list is
  empty (line 296 of the source). -/
  | emptyUnpack
  /-- An `OSError` propagating out unwrapped (non-zero ranks and the
  non-distributed path have no `try`/`except`). -/
  | osError (cause : OSErr)
  /-- The wrapped exception raised on a rank-0 construction failure
  (lines 259-266 of the source): carries the original `OSError` as its
  chained cause (`raise ... from err`) and the guidance message. -/
  | datasetMaterializationError (cause : OSErr) (guidance : String)
  deriving DecidableEq, Repr

/-- The guidance text of the exception raised when rank 0 fails to
materialize a dataset, exactly as concatenated at lines 260-265. -/
def cacheGuidance : String :=
  "Failed to write dataset materials to the data cache directory. Please supply a directory to which you have write access via the path_to_cache attribute in BlendedMegatronDatasetConfig and retry. Refer to the preserved traceback above for more information."

/-- Observable events of one rank inside `build_generic_dataset`. -/
inductive TraceEvent where
  /-- A call of the dataset constructor `cls(*args)`. -/
  | construct
  /-- A wait on `torch.distributed.barrier()`. -/
  | barrier
  deriving DecidableEq, Repr

/-- Embedding of `BlendedMegatronDatasetBuilder.build_generic_dataset`
(lines 229-276).  `distInit` is `torch.distributed.is_initialized()`, `rank`
the current rank, `built` the value of `is_built_on_rank()` on this rank, and
`ctor` the outcome of calling `cls(*args)` (a value, or a raised `OSError`).
Returns the function's result on this rank together with the ordered list of
constructor calls and barrier waits it performed. -/
def buildGenericDataset {α : Type} (distInit : Bool) (rank : ℕ) (built : Bool)
    (ctor : Except OSErr α) : Except BuildError (Option α) × List TraceEvent :=
  if distInit then
    -- First, build on rank 0 (wrapping an OSError); the barrier is not
    -- reached when the constructor raises.
    if rank = 0 ∧ built = true then
      match ctor with
      | .error e => (.error (.datasetMaterializationError e cacheGuidance), [.construct])
      | .ok d => (.ok (some d), [.construct, .barrier])
    else
      -- This rank skips the pre-barrier build; after the barrier, non-zero
      -- ranks with is_built_on_rank() build (no try/except there).
      if rank ≠ 0 ∧ built = true then
        match ctor with
        | .error e => (.error (.osError e), [.barrier, .construct])
        | .ok d => (.ok (some d), [.barrier, .construct])
      else
        (.ok none, [.barrier])
  else
    -- No process group: always construct locally.
    match ctor with
    | .error e => (.error (.osError e), [.construct])
    | .ok d => (.ok (some d), [.construct])

/-- `build_generic_dataset` as invoked by the dataset pipeline, where the
modelled constructors (records below) always succeed: the `Option` result on
this rank. -/
def runGeneric {α : Type} (distInit : Bool) (rank : ℕ) (built : Bool) (d : α) : Option α :=
  match (buildGenericDataset distInit rank built (Except.ok d)).1 with
  | .ok o => o
  | .error _ => none

/-- The handle of `MMapIndexedDataset(path_prefix, multimodal)`: an external
collaborator, recorded by its path prefix and the element count the builder
reads from it (`sequence_lengths.shape[0]` or `document_indices.shape[0] - 1`
according to `is_split_by_sequence`, folded into `BuildEnv.elementCount`). -/
structure MMapIndexedDataset where
  path : String
  numElements : ℕ
  deriving DecidableEq, Repr

/-- The arguments with which `self.cls(indexed_dataset, split_indices[i],
sizes[i], _split, config)` is invoked at lines 215-225 (the config argument,
constant across the build, is omitted). -/
structure MegatronDataset where
  indexedDataset : Option MMapIndexedDataset
  indices : Option (List ℤ)
  size : ℤ
  splitIdx : ℕ
  deriving DecidableEq, Repr

/-- The arguments with which `BlendedDataset(megatron_datasets[i],
weight_per_dataset, size_per_split[i], config)` is invoked (config omitted). -/
structure BlendedDataset where
  datasets : List (Option MegatronDataset)
  weights : List ℚ
  size : ℤ
  deriving DecidableEq, Repr

/-- One entry of the list returned by `build`: a `MegatronDataset` or a
`BlendedDataset` (`Union[BlendedDataset, MegatronDataset]`). -/
inductive DatasetView where
  | mega (d : MegatronDataset)
  | blended (b : BlendedDataset)
  deriving DecidableEq, Repr

/-- The configuration fields the builder reads: `config.blend`,
`config.blend_per_split` and `config.split_matrix`.  The empty list stands
for the falsy values (`None` or `[]`). -/
structure Config where
  blend : List String
  blendPerSplit : List (List String)
  splitMatrix : List (Option (ℚ × ℚ))

/-- The external indexed-dataset storage: the element count reported by the
handle built from a given path prefix. -/
structure BuildEnv where
  elementCount : String → ℕ

/-- Modelled from the spec: `normalize` (from `core.datasets.utils`, not under
src/) divides each raw weight by the sum of the raw weights so that the
result sums to 1. -/
def normalize (w : List ℚ) : List ℚ :=
  w.map (fun x => x / w.sum)

/-- Python `round()` on a rational: round half to even, as applied by
`int(round(...))` at lines 200-201. -/
def roundPy (q : ℚ) : ℤ :=
  if q - Int.floor q < 1 / 2 then Int.floor q
  else if q - Int.floor q > 1 / 2 then Int.floor q + 1
  else if Int.floor q % 2 = 0 then Int.floor q else Int.floor q + 1

/-- `numpy.arange(start=beg, stop=stop, step=1)`: the consecutive integers
`beg, beg + 1, ..., stop - 1`, empty when `stop ≤ beg`. -/
def arangeInt (beg stop : ℤ) : List ℤ :=
  (List.range (stop - beg).toNat).map (fun (k : ℕ) => beg + (k : ℤ))

/-- The `split_indices` computation of `_build_megatron_dataset_splits`
(lines 197-206): per split, a defined ratio `(b, e)` yields
`arange(round(b * numElements), round(e * numElements))`, an absent ratio
yields `None`. -/
def computeSplitIndices (numElements : ℕ) (split : List (Option (ℚ × ℚ))) :
    List (Option (List ℤ)) :=
  (List.range numSplits).map (fun i =>
    (split.getD i none).map (fun be =>
      arangeInt (roundPy (be.1 * (numElements : ℚ))) (roundPy (be.2 * (numElements : ℚ)))))

/-- The pairing comprehension of line 296-298:
`[(float(blend[i]), blend[i + 1].strip()) for i in range(0, len(blend), 2)]`.
`pf` models Python `float()` on the weight strings.  An odd-length list makes
`blend[i + 1]` go out of range on the last step (`IndexError`). -/
def blendPairs (pf : String → ℚ) : List String → Except BuildError (List (ℚ × String))
  | [] => .ok []
  | [_] => .error .indexOutOfRange
  | w :: p :: rest =>
    match blendPairs pf rest with
    | .error e => .error e
    | .ok tail => .ok ((pf w, p.trim) :: tail)

/-- Embedding of `_get_prefixes_weights_and_sizes_for_blend` (lines 279-311):
pair up weights and prefixes (a `ValueError` surfaces when unpacking the
empty `zip` for an empty blend), normalize the weights, and allocate
`ceil(target * weight * 1.005)` samples per dataset per split. -/
def getPrefixesWeightsAndSizesForBlend (pf : String → ℚ) (blend : List String)
    (targetNumSamplesPerSplit : List ℤ) :
    Except BuildError (List String × List ℚ × List (List ℤ)) :=
  match blendPairs pf blend with
  | .error e => .error e
  | .ok pairs =>
    if pairs = [] then .error .emptyUnpack
    else
      let weights := normalize (pairs.map (fun wp => wp.1))
      let paths := pairs.map (fun wp => wp.2)
      let sizesPerDataset :=
        weights.map (fun w =>
          targetNumSamplesPerSplit.map (fun (t : ℤ) => Int.ceil ((t : ℚ) * w * (1005 / 1000))))
      .ok (paths, weights, sizesPerDataset)

/-- A Python `for i in range(n)` loop whose body may raise, collecting the
appended results: the body runs for `i = 0, 1, ...` in order and the first
raised exception aborts the loop. -/
def mapMRange {α : Type} (f : ℕ → Except BuildError α) : ℕ → Except BuildError (List α)
  | 0 => .ok []
  | n + 1 =>
    match mapMRange f n with
    | .error e => .error e
    | .ok front =>
      match f n with
      | .error e => .error e
      | .ok last => .ok (front ++ [last])

/-- The elements remaining in the one-shot iterator
`map(lambda _: _ is None, megatron_datasets[i])` after Python `all()` has
consumed it: `all()` stops at (and consumes) the first non-`None` element, or
exhausts the iterator when every element is `None`. -/
def afterFirstNonNone {α : Type} : List (Option α) → List (Option α)
  | [] => []
  | none :: rest => afterFirstNonNone rest
  | some _ :: rest => rest

/-- The condition of the assert at line 106,
`assert all(is_none) or not any(is_none)`, with `is_none` a one-shot `map`
iterator: `all(is_none)` consumes up to and including the first non-`None`
member, and `any(is_none)` then inspects only the remaining elements. -/
def mixedNoneAssertPasses {α : Type} (l : List (Option α)) : Bool :=
  l.all Option.isNone || !((afterFirstNonNone l).any Option.isNone)

/-- The body of the per-split loop at lines 99-116 for split `i`: when the
shared ratio for split `i` is absent, assert every per-dataset view is absent
and append `None`; otherwise run the (iterator-consuming) mixed-null assert
and append the rank-gated `BlendedDataset`. -/
def splitsLoopBody (distInit : Bool) (rank : ℕ) (built : Bool)
    (split : List (Option (ℚ × ℚ))) (megatronDatasets : List (List (Option MegatronDataset)))
    (weightPerDataset : List ℚ) (sizePerSplit : List ℤ) (i : ℕ) :
    Except BuildError (Option DatasetView) :=
  let mds := megatronDatasets.getD i []
  match split.getD i none with
  | none =>
    if mds.all Option.isNone then .ok none else .error .assertionFailure
  | some _ =>
    if mixedNoneAssertPasses mds then
      .ok ((runGeneric distInit rank built
        { datasets := mds, weights := weightPerDataset, size := sizePerSplit.getD i 0 }).map
          DatasetView.blended)
    else .error .assertionFailure

/-- The per-split composite-assembly loop of lines 97-118
(`for i in range(len(megatron_datasets))`, with `len = len(Split)`). -/
def splitsLoop (distInit : Bool) (rank : ℕ) (built : Bool)
    (split : List (Option (ℚ × ℚ))) (megatronDatasets : List (List (Option MegatronDataset)))
    (weightPerDataset : List ℚ) (sizePerSplit : List ℤ) :
    Except BuildError (List (Option DatasetView)) :=
  mapMRange (splitsLoopBody distInit rank built split megatronDatasets weightPerDataset sizePerSplit)
    numSplits

/-- Embedding of `_build_megatron_dataset_splits` (lines 172-227): build the
indexed dataset through `build_generic_dataset`, compute the per-split index
ranges when it is present on this rank (all `None` otherwise), then build one
rank-gated `MegatronDataset` per defined split. -/
def buildMegatronDatasetSplits (env : BuildEnv) (distInit : Bool) (rank : ℕ) (built : Bool)
    (path : String) (split : List (Option (ℚ × ℚ))) (sizes : List ℤ) :
    List (Option MegatronDataset) :=
  let indexedDataset : Option MMapIndexedDataset :=
    runGeneric distInit rank built { path := path, numElements := env.elementCount path }
  let splitIndices : List (Option (List ℤ)) :=
    match indexedDataset with
    | some ds => computeSplitIndices ds.numElements split
    | none => (List.range numSplits).map (fun _ => none)
  (List.range numSplits).map (fun i =>
    match split.getD i none with
    | none => none
    | some _ =>
      runGeneric distInit rank built
        { indexedDataset := indexedDataset
          indices := splitIndices.getD i none
          size := sizes.getD i 0
          splitIdx := i })

/-- The body of the per-split loop of Mode B (`config.blend_per_split`,
lines 120-170) for split `i`: absent blend yields `None`; a single-element
blend (a bare prefix) delegates to the single-dataset path under the spoofed
ratio matrix and size vector and keeps only position `i`; a longer blend runs
the weighted path scoped to the spoofed vectors and wraps the members in a
rank-gated `BlendedDataset`. -/
def buildPerSplitBody (env : BuildEnv) (distInit : Bool) (rank : ℕ) (built : Bool)
    (pf : String → ℚ) (cfg : Config) (sizes : List ℤ) (i : ℕ) :
    Except BuildError (Option DatasetView) :=
  let blend := cfg.blendPerSplit.getD i []
  if blend = [] then .ok none
  else
    let splitSpoof : List (Option (ℚ × ℚ)) :=
      (List.range numSplits).map (fun j => if j = i then some ((0 : ℚ), (1 : ℚ)) else none)
    let sizesSpoof : List ℤ :=
      (List.range numSplits).map (fun j => if j = i then sizes.getD i 0 else 0)
    if blend.length = 1 then
      .ok (((buildMegatronDatasetSplits env distInit rank built (blend.getD 0 "")
        splitSpoof sizesSpoof).getD i none).map DatasetView.mega)
    else
      match getPrefixesWeightsAndSizesForBlend pf blend sizesSpoof with
      | .error e => .error e
      | .ok pws =>
        let megatronDatasets : List (Option MegatronDataset) :=
          (pws.1.zip pws.2.2).map (fun ps =>
            (buildMegatronDatasetSplits env distInit rank built ps.1 splitSpoof ps.2).getD i none)
        let sizePerSplit : List ℤ :=
          (List.range numSplits).map (fun j => (pws.2.2.map (fun row => row.getD j 0)).sum)
        .ok ((runGeneric distInit rank built
          { datasets := megatronDatasets, weights := pws.2.1, size := sizePerSplit.getD i 0 }).map
            DatasetView.blended)

/-- Embedding of `_build_blended_dataset_splits` (lines 58-170), the body of
`build`.  Mode A (`config.blend` truthy): a single-element blend takes the
degenerate unwrapped path; otherwise allocate weights and sizes, build every
dataset's splits, transpose, sum the per-split targets and assemble the
composites through the asserting loop.  Mode B: one independent blend per
split. -/
def buildBlendedDatasetSplits (env : BuildEnv) (distInit : Bool) (rank : ℕ) (built : Bool)
    (pf : String → ℚ) (cfg : Config) (sizes : List ℤ) :
    Except BuildError (List (Option DatasetView)) :=
  if cfg.blend ≠ [] then
    if cfg.blend.length = 1 then
      .ok ((buildMegatronDatasetSplits env distInit rank built (cfg.blend.getD 0 "")
        cfg.splitMatrix sizes).map (Option.map DatasetView.mega))
    else
      match getPrefixesWeightsAndSizesForBlend pf cfg.blend sizes with
      | .error e => .error e
      | .ok pws =>
        let rows : List (List (Option MegatronDataset)) :=
          (pws.1.zip pws.2.2).map (fun ps =>
            buildMegatronDatasetSplits env distInit rank built ps.1 cfg.splitMatrix ps.2)
        let megatronDatasets : List (List (Option MegatronDataset)) :=
          (List.range numSplits).map (fun j => rows.map (fun row => row.getD j none))
        let sizePerSplit : List ℤ :=
          (List.range numSplits).map (fun j => (pws.2.2.map (fun row => row.getD j 0)).sum)
        splitsLoop distInit rank built cfg.splitMatrix megatronDatasets pws.2.1 sizePerSplit
  else
    mapMRange (buildPerSplitBody env distInit rank built pf cfg sizes) numSplits

/-- Python `float()` restricted to the unsigned decimal integer literals that
appear in the concrete examples (`"1"`, `"30"`, `"70"`); the general theorems
about blend parsing quantify over the parse function instead. -/
def parseDecimalNat (s : String) : ℚ :=
  ((s.toNat?).getD 0 : ℕ)

/-- The entries at even positions 0, 2, 4, ... of a list (the weight entries
of a serialized blend). -/
def evensOf {α : Type} : List α → List α
  | [] => []
  | [a] => [a]
  | a :: _ :: rest => a :: evensOf rest

/-- The entries at odd positions 1, 3, 5, ... of a list (the prefix entries
of a serialized blend, each immediately preceded by its weight entry). -/
def oddsOf {α : Type} : List α → List α
  | [] => []
  | [_] => []
  | _ :: b :: rest => b :: oddsOf rest

/-- Environment of the Mode B example: dataset `A` has 10 elements and
dataset `B` has 4. -/
def envAB : BuildEnv :=
  { elementCount := fun s => if s = "A" then 10 else if s = "B" then 4 else 0 }

/-- Environment with a four-element dataset at every path. -/
def envFour : BuildEnv :=
  { elementCount := fun _ => 4 }

/-- Decidable equality of builder results, used to evaluate the concrete
examples. -/
instance {ε α : Type} [DecidableEq ε] [DecidableEq α] : DecidableEq (Except ε α)
  | .ok a, .ok b =>
    match decEq a b with
    | isTrue h => isTrue (by rw [h])
    | isFalse h => isFalse (by intro hc; cases hc; exact h rfl)
  | .ok _, .error _ => isFalse (by intro hc; cases hc)
  | .error _, .ok _ => isFalse (by intro hc; cases hc)
  | .error a, .error b =>
    match decEq a b with
    | isTrue h => isTrue (by rw [h])
    | isFalse h => isFalse (by intro hc; cases hc; exact h rfl)

/-! Helper lemmas. -/

theorem getD_map_range {α : Type} (f : ℕ → α) (n i : ℕ) (d : α) :
    ((List.range n).map f).getD i d = if i < n then f i else d := by
  rcases Nat.lt_or_ge i n with h | h
  · rw [List.getD_eq_getElem _ _ (by simpa using h)]
    simp [h]
  · rw [List.getD_eq_default _ _ (by simpa using h)]
    simp [Nat.not_lt.mpr h]

theorem runGeneric_eq {α : Type} (distInit : Bool) (rank : ℕ) (built : Bool) (d : α) :
    runGeneric distInit rank built d =
      if distInit = true ∧ built = false then none else some d := by
  cases distInit <;> cases built <;> by_cases hr : rank = 0 <;>
    simp [runGeneric, buildGenericDataset, hr]

theorem mapMRange_ok_length {α : Type} (f : ℕ → Except BuildError α) :
    ∀ (n : ℕ) (out : List α), mapMRange f n = .ok out → out.length = n := by
  intro n
  induction n with
  | zero => intro out h; cases h; rfl
  | succ m ih =>
    intro out h
    rw [mapMRange] at h
    cases hm : mapMRange f m with
    | error e => rw [hm] at h; cases h
    | ok front =>
      rw [hm] at h
      cases hf : f m with
      | error e => rw [hf] at h; cases h
      | ok last =>
        rw [hf] at h
        cases h
        simp [ih front hm]

theorem mapMRange_ok_getD {α : Type} (f : ℕ → Except BuildError α) (d0 : α) :
    ∀ (n : ℕ) (out : List α), mapMRange f n = .ok out →
      ∀ i, i < n → f i = .ok (out.getD i d0) := by
  intro n
  induction n with
  | zero => intro out _ i hi; omega
  | succ m ih =>
    intro out h i hi
    rw [mapMRange] at h
    cases hm : mapMRange f m with
    | error e => rw [hm] at h; cases h
    | ok front =>
      rw [hm] at h
      cases hf : f m with
      | error e => rw [hf] at h; cases h
      | ok last =>
        rw [hf] at h
        cases h
        have hlen : front.length = m := mapMRange_ok_length f m front hm
        rcases Nat.lt_or_ge i m with him | him
        · rw [List.getD_append _ _ _ _ (by omega)]
          exact ih front hm i him
        · have : i = m := by omega
          subst this
          rw [List.getD_eq_getElem _ _ (by simp [hlen])]
          simp [hlen, hf]

theorem mixedNone_singleton {α : Type} (x : Option α) :
    mixedNoneAssertPasses [x] = true := by
  cases x <;> simp [mixedNoneAssertPasses, afterFirstNonNone]

theorem getD_map {α β : Type} (f : α → β) (l : List α) (i : ℕ) (d : β) (e : α)
    (hi : i < l.length) : (l.map f).getD i d = f (l.getD i e) := by
  rw [List.getD_eq_getElem _ _ (by simpa using hi), List.getD_eq_getElem _ _ hi]
  simp

theorem arangeInt_length (beg stop : ℤ) : (arangeInt beg stop).length = (stop - beg).toNat := by
  rw [arangeInt, List.length_map, List.length_range]

theorem mem_arangeInt (beg stop k : ℤ) : k ∈ arangeInt beg stop ↔ beg ≤ k ∧ k < stop := by
  rw [arangeInt]
  constructor
  · intro hk
    obtain ⟨j, hj, hjk⟩ := List.mem_map.mp hk
    rw [List.mem_range] at hj
    omega
  · intro hk
    refine List.mem_map.mpr ⟨(k - beg).toNat, ?_, ?_⟩
    · rw [List.mem_range]
      omega
    · omega

theorem arangeInt_getD (beg stop : ℤ) (j : ℕ) (hj : j < (arangeInt beg stop).length) :
    (arangeInt beg stop).getD j 0 = beg + j := by
  rw [List.getD_eq_getElem _ _ hj]
  simp only [arangeInt, List.getElem_map, List.getElem_range]

theorem arangeInt_self (beg : ℤ) : arangeInt beg beg = [] := by
  rw [arangeInt]
  simp

/-! Claim theorems. -/

/-- C1 (status: code_bug, evaluation at the failing input).  The claim — one
null and one non-null member view for a defined split raises the invariant
assertion in any member order — is the spec's clear intent, but the code's
`is_none = map(...)` at line 100 is a one-shot iterator: `all(is_none)` in
the assert at line 106 consumes it up to and including the first non-`None`
member, so `not any(is_none)` only inspects the tail.  First conjunct: with
member views `[None, view]` (null first) the assert passes and a composite
holding the mixed members is returned.  Second conjunct: with the same
members in the opposite order `[view, None]` the assert fires. -/
theorem claim_C1_failing_eval :
    splitsLoop false 0 true [some (0, 1), none, none]
        [[none, some ⟨none, none, 0, 0⟩], [none, none], [none, none]]
        [1 / 2, 1 / 2] [10, 0, 0] =
      .ok [some (.blended ⟨[none, some ⟨none, none, 0, 0⟩], [1 / 2, 1 / 2], 10⟩), none, none] ∧
    splitsLoop false 0 true [some (0, 1), none, none]
        [[some ⟨none, none, 0, 0⟩, none], [none, none], [none, none]]
        [1 / 2, 1 / 2] [10, 0, 0] =
      .error .assertionFailure := by
  with_unfolding_all decide

/-- C4: `build_generic_dataset` with a succeeding constructor returns `None`
exactly when a process group is initialized and `is_built_on_rank()` is false
on this rank; with no process group it always invokes the constructor and
returns the dataset, whatever `is_built_on_rank()` would say. -/
theorem claim_C4 (α : Type) (distInit : Bool) (rank : ℕ) (built : Bool) (d : α) :
    ((buildGenericDataset distInit rank built (Except.ok d)).1 = .ok none ↔
      distInit = true ∧ built = false) ∧
    (distInit = false →
      (buildGenericDataset distInit rank built (Except.ok d)).1 = .ok (some d) ∧
      TraceEvent.construct ∈ (buildGenericDataset distInit rank built (Except.ok d)).2) := by
  cases distInit <;> cases built <;> by_cases hr : rank = 0 <;>
    simp [buildGenericDataset, hr]

/-- C4 witness: on rank 1 of an initialized process group with
`is_built_on_rank() = False`, the result is `None`. -/
theorem claim_C4_witness :
    (buildGenericDataset true 1 false (Except.ok (0 : ℕ))).1 = .ok none :=
  (claim_C4 ℕ true 1 false 0).1.mpr ⟨rfl, rfl⟩

/-- C5: in a distributed build with a succeeding constructor, rank 0 (when
built on this rank) calls the constructor exactly once and strictly before
its barrier wait; a building non-zero rank calls it exactly once and
strictly after the barrier; a non-zero rank never constructs before the
barrier; and every rank, building or not, waits on the barrier. -/
theorem claim_C5 (α : Type) (rank : ℕ) (built : Bool) (d : α) :
    (rank = 0 → built = true →
      (buildGenericDataset true rank built (Except.ok d)).2 = [.construct, .barrier] ∧
      (buildGenericDataset true rank built (Except.ok d)).2.count .construct = 1) ∧
    (rank ≠ 0 → built = true →
      (buildGenericDataset true rank built (Except.ok d)).2 = [.barrier, .construct] ∧
      (buildGenericDataset true rank built (Except.ok d)).2.count .construct = 1) ∧
    (rank ≠ 0 → ∀ rest, (buildGenericDataset true rank built (Except.ok d)).2 ≠
      TraceEvent.construct :: rest) ∧
    TraceEvent.barrier ∈ (buildGenericDataset true rank built (Except.ok d)).2 := by
  cases built <;> by_cases hr : rank = 0 <;>
    simp [buildGenericDataset, hr, List.count_cons, List.count_nil]

/-- C5 witness: rank 1 building, two-rank scenario — the constructor call
happens exactly once, after the barrier. -/
theorem claim_C5_witness :
    (buildGenericDataset true 1 true (Except.ok (0 : ℕ))).2 = [.barrier, .construct] :=
  (((claim_C5 ℕ 1 true 0).2.1) (by omega) rfl).1

/-- C6: an `OSError` from the constructor during the rank-0 build step is
re-raised as the wrapped fatal error whose cause is the original `OSError`
(`raise Exception(log) from err`) and whose message is the cache-directory
write-permission guidance; nothing is returned on that rank (the result is
the raised error, not a value), and the barrier is never reached. -/
theorem claim_C6 (α : Type) (e : OSErr) :
    buildGenericDataset true 0 true (Except.error e : Except OSErr α) =
      (.error (.datasetMaterializationError e cacheGuidance), [.construct]) := by
  simp [buildGenericDataset]

/-- C2: a defined ratio entry `(b, e)` of the split matrix yields exactly the
index range `arange(round(b * n), round(e * n))` (whose elements are the
consecutive integers of `[beg, end)`, in order, step 1 — third and fourth
conjuncts), an absent entry yields an absent range, an empty range
(`beg = end`) is accepted and holds zero indices, and for ratios
`(0, 0.8), (0.8, 0.9), (0.9, 1.0)` with 1000 elements the ranges are exactly
`[0, 800), [800, 900), [900, 1000)`, pairwise disjoint and covering
`[0, 1000)`. -/
theorem claim_C2 :
    (∀ (n : ℕ) (split : List (Option (ℚ × ℚ))) (i : ℕ) (b e : ℚ),
      i < numSplits → split.getD i none = some (b, e) →
      (computeSplitIndices n split).getD i none =
        some (arangeInt (roundPy (b * (n : ℚ))) (roundPy (e * (n : ℚ))))) ∧
    (∀ (n : ℕ) (split : List (Option (ℚ × ℚ))) (i : ℕ),
      i < numSplits → split.getD i none = none →
      (computeSplitIndices n split).getD i none = none) ∧
    (∀ (beg stop k : ℤ), k ∈ arangeInt beg stop ↔ beg ≤ k ∧ k < stop) ∧
    (∀ (beg stop : ℤ) (j : ℕ), j < (arangeInt beg stop).length →
      (arangeInt beg stop).getD j 0 = beg + j) ∧
    (∀ beg : ℤ, arangeInt beg beg = []) ∧
    (computeSplitIndices 1000 [some (0, 8 / 10), some (8 / 10, 9 / 10), some (9 / 10, 1)] =
      [some (arangeInt 0 800), some (arangeInt 800 900), some (arangeInt 900 1000)]) ∧
    (∀ k : ℤ,
      ¬(k ∈ arangeInt 0 800 ∧ k ∈ arangeInt 800 900) ∧
      ¬(k ∈ arangeInt 800 900 ∧ k ∈ arangeInt 900 1000) ∧
      ¬(k ∈ arangeInt 0 800 ∧ k ∈ arangeInt 900 1000) ∧
      ((0 ≤ k ∧ k < 1000) ↔
        (k ∈ arangeInt 0 800 ∨ k ∈ arangeInt 800 900 ∨ k ∈ arangeInt 900 1000))) := by
  refine ⟨?_, ?_, mem_arangeInt, arangeInt_getD, arangeInt_self, ?_, ?_⟩
  · intro n split i b e hi hsome
    simp only [computeSplitIndices]
    rw [getD_map_range, if_pos hi, hsome]
    rfl
  · intro n split i hi hnone
    simp only [computeSplitIndices]
    rw [getD_map_range, if_pos hi, hnone]
    rfl
  · have h0 : roundPy (0 : ℚ) = 0 := by with_unfolding_all decide
    have h8 : roundPy ((8 : ℚ) / 10 * 1000) = 800 := by with_unfolding_all decide
    have h9 : roundPy ((9 : ℚ) / 10 * 1000) = 900 := by with_unfolding_all decide
    have h1 : roundPy (1000 : ℚ) = 1000 := by with_unfolding_all decide
    simp [computeSplitIndices, numSplits, List.range_succ, h0, h8, h9, h1]
  · intro k
    simp only [mem_arangeInt]
    omega

/-- C2 witness: a concrete defined entry, an absent entry, and an empty
range. -/
theorem claim_C2_witness :
    (computeSplitIndices 7 [none, some (0, 1), none]).getD 1 none =
      some (arangeInt (roundPy ((0 : ℚ) * ((7 : ℕ) : ℚ))) (roundPy ((1 : ℚ) * ((7 : ℕ) : ℚ)))) ∧
    (computeSplitIndices 7 [none, some (0, 1), none]).getD 0 none = none ∧
    arangeInt 3 3 = [] :=
  ⟨claim_C2.1 7 [none, some (0, 1), none] 1 0 1 (by decide) rfl,
   claim_C2.2.1 7 [none, some (0, 1), none] 0 (by decide) rfl,
   claim_C2.2.2.2.2.1 3⟩

/-- C3: the sizes allocated by `_get_prefixes_weights_and_sizes_for_blend`
are exactly `ceil(target * weight * 1.005)` for every dataset `d` and split
`s`, with the returned (normalized) weights; for non-negative target and
weight the allocation is at least `ceil(target * weight)`. -/
theorem claim_C3 (pf : String → ℚ) (blend : List String) (targets : List ℤ)
    (paths : List String) (weights : List ℚ) (szs : List (List ℤ)) (d s : ℕ)
    (h : getPrefixesWeightsAndSizesForBlend pf blend targets = .ok (paths, weights, szs))
    (hd : d < weights.length) (hs : s < targets.length) :
    (szs.getD d []).getD s 0 =
      Int.ceil ((targets.getD s 0 : ℚ) * weights.getD d 0 * (1005 / 1000)) ∧
    (0 ≤ targets.getD s 0 → 0 ≤ weights.getD d 0 →
      Int.ceil ((targets.getD s 0 : ℚ) * weights.getD d 0) ≤ (szs.getD d []).getD s 0) := by
  rw [getPrefixesWeightsAndSizesForBlend] at h
  cases hbp : blendPairs pf blend with
  | error e => simp [hbp] at h
  | ok pairs =>
    by_cases hne : pairs = []
    · simp [hbp, hne] at h
    · simp only [hbp, if_neg hne, Except.ok.injEq, Prod.mk.injEq] at h
      obtain ⟨hpaths, hweights, hszs⟩ := h
      subst hweights
      subst hszs
      have hkey : (((normalize (pairs.map (fun wp => wp.1))).map (fun w =>
          targets.map (fun (t : ℤ) => Int.ceil ((t : ℚ) * w * (1005 / 1000))))).getD d []).getD s 0 =
          Int.ceil ((targets.getD s 0 : ℚ) *
            (normalize (pairs.map (fun wp => wp.1))).getD d 0 * (1005 / 1000)) := by
        rw [getD_map _ _ _ _ 0 hd]
        rw [getD_map _ _ _ _ 0 hs]
      refine ⟨hkey, ?_⟩
      intro ht hw
      rw [hkey]
      have hcast : (0 : ℚ) ≤ (targets.getD s 0 : ℚ) := by exact_mod_cast ht
      have hnn : 0 ≤ (targets.getD s 0 : ℚ) * (normalize (pairs.map (fun wp => wp.1))).getD d 0 :=
        mul_nonneg hcast hw
      have hle : (targets.getD s 0 : ℚ) * (normalize (pairs.map (fun wp => wp.1))).getD d 0 ≤
          (targets.getD s 0 : ℚ) * (normalize (pairs.map (fun wp => wp.1))).getD d 0 *
            (1005 / 1000) := by
        nlinarith
      exact Int.ceil_mono hle

/-- C3 witness: the blend `30 A 70 B` with targets `[100, 0, 50]` allocates
`ceil(100 * 0.3 * 1.005) = 31` to dataset 0 in split 0, at least
`ceil(100 * 0.3) = 30`. -/
theorem claim_C3_witness :
    (([[31, 0, 16], [71, 0, 36]] : List (List ℤ)).getD 0 []).getD 0 0 =
      Int.ceil ((([100, 0, 50] : List ℤ).getD 0 0 : ℚ) *
        ([3 / 10, 7 / 10] : List ℚ).getD 0 0 * (1005 / 1000)) ∧
    (0 ≤ ([100, 0, 50] : List ℤ).getD 0 0 → 0 ≤ ([3 / 10, 7 / 10] : List ℚ).getD 0 0 →
      Int.ceil ((([100, 0, 50] : List ℤ).getD 0 0 : ℚ) *
        ([3 / 10, 7 / 10] : List ℚ).getD 0 0) ≤
        (([[31, 0, 16], [71, 0, 36]] : List (List ℤ)).getD 0 []).getD 0 0) :=
  claim_C3 parseDecimalNat ["30", "A", "70", "B"] [100, 0, 50] ["A", "B"]
    [3 / 10, 7 / 10] [[31, 0, 16], [71, 0, 36]] 0 0
    (by with_unfolding_all decide) (by norm_num) (by norm_num)

theorem blendPairs_odd (pf : String → ℚ) :
    ∀ l : List String, l.length % 2 = 1 → blendPairs pf l = .error .indexOutOfRange
  | [], h => by simp at h
  | [_], _ => rfl
  | a :: b :: rest, h => by
    have hr : rest.length % 2 = 1 := by
      simp only [List.length_cons] at h
      omega
    have ih := blendPairs_odd pf rest hr
    simp [blendPairs, ih]

theorem blendPairs_even (pf : String → ℚ) :
    ∀ l : List String, l.length % 2 = 0 →
      blendPairs pf l = .ok (((evensOf l).map pf).zip ((oddsOf l).map String.trim))
  | [], _ => rfl
  | [_], h => by simp at h
  | a :: b :: rest, h => by
    have hr : rest.length % 2 = 0 := by
      simp only [List.length_cons] at h
      omega
    have ih := blendPairs_even pf rest hr
    simp [blendPairs, ih, evensOf, oddsOf]

theorem evensOf_length_eq {α : Type} :
    ∀ l : List α, l.length % 2 = 0 → (evensOf l).length = (oddsOf l).length
  | [], _ => rfl
  | [_], h => by simp at h
  | a :: b :: rest, h => by
    have hr : rest.length % 2 = 0 := by
      simp only [List.length_cons] at h
      omega
    simp [evensOf, oddsOf, evensOf_length_eq rest hr]

/-- C7 (status: corrected) counterexample to the claim as stated: a blend
list with a single element — odd element count — is the valid degenerate
single-prefix form of Mode A and builds successfully instead of failing. -/
theorem claim_C7_counterexample :
    buildBlendedDatasetSplits envFour false 0 true parseDecimalNat
        ⟨["A"], [], [some (0, 1), none, none]⟩ [5, 0, 0] =
      .ok [some (.mega ⟨some ⟨"A", 4⟩, some (arangeInt 0 4), 5, 0⟩), none, none] := by
  with_unfolding_all decide

/-- C7 amended: for every blend list of odd length greater than one, the
build fails with the index-out-of-range error raised while pairing weights
with prefixes, and it does so before any I/O: the quantification over the
environment, the process-group state and the sizes shows the failure is
produced before any dataset is consulted or constructed. -/
theorem claim_C7_amended (env : BuildEnv) (distInit : Bool) (rank : ℕ) (built : Bool)
    (pf : String → ℚ) (cfg : Config) (sizes : List ℤ)
    (hodd : cfg.blend.length % 2 = 1) (hgt : 1 < cfg.blend.length) :
    buildBlendedDatasetSplits env distInit rank built pf cfg sizes =
      .error .indexOutOfRange := by
  have hne : cfg.blend ≠ [] := by
    intro h
    rw [h] at hgt
    simp at hgt
  have hlen1 : cfg.blend.length ≠ 1 := by omega
  have hgp : getPrefixesWeightsAndSizesForBlend pf cfg.blend sizes =
      .error .indexOutOfRange := by
    simp only [getPrefixesWeightsAndSizesForBlend, blendPairs_odd pf cfg.blend hodd]
  simp only [buildBlendedDatasetSplits, if_pos hne, if_neg hlen1, hgp]

/-- C7 witness for the amended claim: a three-element blend fails with the
pairing error. -/
theorem claim_C7_witness :
    buildBlendedDatasetSplits envFour false 0 true parseDecimalNat
        ⟨["30", "A", "70"], [], []⟩ [1, 0, 0] = .error .indexOutOfRange :=
  claim_C7_amended envFour false 0 true parseDecimalNat ⟨["30", "A", "70"], [], []⟩ [1, 0, 0]
    (by decide) (by decide)

/-- C10 (status: corrected) counterexample to the claim as stated: the empty
blend list has even length and vacuously alternates weight and prefix
entries, but the function raises the unpacking error (`zip(*[])` yields no
values to unpack) instead of returning empty prefix and weight lists. -/
theorem claim_C10_counterexample :
    getPrefixesWeightsAndSizesForBlend parseDecimalNat [] [100, 0, 50] =
      .error .emptyUnpack := by
  with_unfolding_all decide

/-- C10 amended: for every nonempty well-formed blend list (even length,
alternating weight and prefix entries), the returned prefixes are the
odd-position entries in blend input order with whitespace stripped, each
paired positionally with the (normalized) weight parsed from the even-position
entry immediately preceding it. -/
theorem claim_C10_amended (pf : String → ℚ) (blend : List String) (targets : List ℤ)
    (hne : blend ≠ []) (hev : blend.length % 2 = 0) :
    ∃ szs, getPrefixesWeightsAndSizesForBlend pf blend targets =
      .ok ((oddsOf blend).map String.trim, normalize ((evensOf blend).map pf), szs) := by
  have hbp := blendPairs_even pf blend hev
  have hlen := evensOf_length_eq blend hev
  have hpairsne : ((evensOf blend).map pf).zip ((oddsOf blend).map String.trim) ≠ [] := by
    cases blend with
    | nil => exact absurd rfl hne
    | cons a rest =>
      cases rest with
      | nil => simp at hev
      | cons b rest2 => simp [evensOf, oddsOf]
  have hfst : (((evensOf blend).map pf).zip ((oddsOf blend).map String.trim)).map
      (fun wp => wp.1) = (evensOf blend).map pf := by
    have := List.map_fst_zip ((evensOf blend).map pf) ((oddsOf blend).map String.trim)
      (by simp [hlen])
    simpa using this
  have hsnd : (((evensOf blend).map pf).zip ((oddsOf blend).map String.trim)).map
      (fun wp => wp.2) = (oddsOf blend).map String.trim := by
    have := List.map_snd_zip ((evensOf blend).map pf) ((oddsOf blend).map String.trim)
      (by simp [hlen])
    simpa using this
  refine ⟨(normalize ((evensOf blend).map pf)).map (fun w =>
    targets.map (fun (t : ℤ) => Int.ceil ((t : ℚ) * w * (1005 / 1000)))), ?_⟩
  simp only [getPrefixesWeightsAndSizesForBlend, hbp, if_neg hpairsne, hfst, hsnd]

/-- C10 witness for the amended claim: a four-element blend with a padded
prefix string. -/
theorem claim_C10_witness :
    ∃ szs, getPrefixesWeightsAndSizesForBlend parseDecimalNat ["30", " A ", "70", "B"]
        [100, 0, 50] =
      .ok ((oddsOf ["30", " A ", "70", "B"]).map String.trim,
        normalize ((evensOf ["30", " A ", "70", "B"]).map parseDecimalNat), szs) :=
  claim_C10_amended parseDecimalNat ["30", " A ", "70", "B"] [100, 0, 50]
    (by simp) (by decide)

theorem buildMegatron_getD_none (env : BuildEnv) (distInit : Bool) (rank : ℕ) (built : Bool)
    (path : String) (split : List (Option (ℚ × ℚ))) (szs : List ℤ) (i : ℕ)
    (hi : i < numSplits) (hs : split.getD i none = none) :
    (buildMegatronDatasetSplits env distInit rank built path split szs).getD i none = none := by
  simp only [buildMegatronDatasetSplits]
  rw [getD_map_range, if_pos hi, hs]

theorem buildMegatron_indices_indep (env : BuildEnv) (distInit : Bool) (rank : ℕ)
    (built : Bool) (path : String) (split : List (Option (ℚ × ℚ))) (szs szs2 : List ℤ)
    (i : ℕ) :
    ((buildMegatronDatasetSplits env distInit rank built path split szs).getD i none).map
      MegatronDataset.indices =
    ((buildMegatronDatasetSplits env distInit rank built path split szs2).getD i none).map
      MegatronDataset.indices := by
  by_cases hi : i < numSplits
  · simp only [buildMegatronDatasetSplits]
    rw [getD_map_range, getD_map_range, if_pos hi, if_pos hi]
    cases hs : split.getD i none with
    | none => rfl
    | some be => simp [runGeneric_eq, apply_ite]
  · simp only [buildMegatronDatasetSplits]
    rw [getD_map_range, getD_map_range, if_neg hi, if_neg hi]

/-- C8: in per-split-blend mode, a split with no configured blend produces
`None` (first conjunct); a split whose blend is the single-element form `[p]`
is delegated to the single-dataset path under the spoofed ratio matrix
(`(0, 1)` at position `i`, absent elsewhere) and spoofed size vector (the
caller's target at position `i`, zero elsewhere), keeping only position `i`
of its output (second conjunct); and for
`blendPerSplit = [["1", "A"], None, ["1", "B"]]` with targets `[100, 0, 50]`
the Train entry derives wholly from dataset `A` — its composite holds
exactly one member, built from `A` with the full index range `[0, 10)` —
Validation is `None`, and Test derives wholly from dataset `B` with full
range `[0, 4)` (third conjunct). -/
theorem claim_C8 :
    (∀ (env : BuildEnv) (distInit : Bool) (rank : ℕ) (built : Bool) (pf : String → ℚ)
      (cfg : Config) (sizes : List ℤ) (i : ℕ) (out : List (Option DatasetView)),
      cfg.blend = [] → i < numSplits → cfg.blendPerSplit.getD i [] = [] →
      buildBlendedDatasetSplits env distInit rank built pf cfg sizes = .ok out →
      out.getD i none = none) ∧
    (∀ (env : BuildEnv) (distInit : Bool) (rank : ℕ) (built : Bool) (pf : String → ℚ)
      (cfg : Config) (sizes : List ℤ) (i : ℕ) (p : String) (out : List (Option DatasetView)),
      cfg.blend = [] → i < numSplits → cfg.blendPerSplit.getD i [] = [p] →
      buildBlendedDatasetSplits env distInit rank built pf cfg sizes = .ok out →
      out.getD i none =
        ((buildMegatronDatasetSplits env distInit rank built p
            ((List.range numSplits).map (fun j => if j = i then some ((0 : ℚ), (1 : ℚ)) else none))
            ((List.range numSplits).map (fun j => if j = i then sizes.getD i 0 else 0))).getD i
          none).map DatasetView.mega) ∧
    (buildBlendedDatasetSplits envAB false 0 true parseDecimalNat
        ⟨[], [["1", "A"], [], ["1", "B"]], []⟩ [100, 0, 50] =
      .ok [some (.blended ⟨[some ⟨some ⟨"A", 10⟩, some (arangeInt 0 10), 101, 0⟩], [1], 101⟩),
        none,
        some (.blended ⟨[some ⟨some ⟨"B", 4⟩, some (arangeInt 0 4), 51, 2⟩], [1], 51⟩)]) := by
  refine ⟨?_, ?_, ?_⟩
  · intro env distInit rank built pf cfg sizes i out hb hi hbps hbuild
    simp only [buildBlendedDatasetSplits, hb, ne_eq, not_true_eq_false, if_false,
      reduceIte] at hbuild
    have hbody := mapMRange_ok_getD (buildPerSplitBody env distInit rank built pf cfg sizes)
      none numSplits out hbuild i hi
    simp only [buildPerSplitBody] at hbody
    rw [hbps] at hbody
    rw [if_pos rfl] at hbody
    exact (Except.ok.inj hbody).symm
  · intro env distInit rank built pf cfg sizes i p out hb hi hbps hbuild
    simp only [buildBlendedDatasetSplits, hb, ne_eq, not_true_eq_false, if_false,
      reduceIte] at hbuild
    have hbody := mapMRange_ok_getD (buildPerSplitBody env distInit rank built pf cfg sizes)
      none numSplits out hbuild i hi
    simp only [buildPerSplitBody] at hbody
    rw [hbps] at hbody
    rw [if_neg (by simp), if_pos (show ([p] : List String).length = 1 from rfl)] at hbody
    exact (Except.ok.inj hbody).symm
  · with_unfolding_all decide

/-- C8 witness: a single-element per-split blend `["A"]` for Train with
targets `[5, 0, 0]` — the Train output is position 0 of the spoofed
single-dataset path. -/
theorem claim_C8_witness :
    ([some (.mega ⟨some ⟨"A", 4⟩, some (arangeInt 0 4), 5, 0⟩), none, none] :
        List (Option DatasetView)).getD 0 none =
      ((buildMegatronDatasetSplits envFour false 0 true "A"
          ((List.range numSplits).map (fun j => if j = 0 then some ((0 : ℚ), (1 : ℚ)) else none))
          ((List.range numSplits).map
            (fun j => if j = 0 then ([5, 0, 0] : List ℤ).getD 0 0 else 0))).getD 0
        none).map DatasetView.mega :=
  claim_C8.2.1 envFour false 0 true parseDecimalNat ⟨[], [["A"], [], []], []⟩ [5, 0, 0] 0 "A"
    [some (.mega ⟨some ⟨"A", 4⟩, some (arangeInt 0 4), 5, 0⟩), none, none]
    rfl (by decide) (by decide) (by with_unfolding_all decide)

/-- C9: in shared-blend mode with the degenerate single-element blend `[p]`,
`build` returns the per-split views of that dataset directly — each defined
split yields an unwrapped `MegatronDataset` view, not a composite (first
conjunct); and running the weighted multi-dataset path on the same dataset
with one weight entry produces composites whose normalized weight vector is
`[1.0]` and whose sole member view has exactly the same per-split index
range as the degenerate path's view (second conjunct). -/
theorem claim_C9 (env : BuildEnv) (distInit : Bool) (rank : ℕ) (built : Bool)
    (pf : String → ℚ) (bps : List (List String)) (sm : List (Option (ℚ × ℚ)))
    (sizes : List ℤ) (p wstr : String) :
    buildBlendedDatasetSplits env distInit rank built pf ⟨[p], bps, sm⟩ sizes =
      .ok ((buildMegatronDatasetSplits env distInit rank built p sm sizes).map
        (Option.map DatasetView.mega)) ∧
    (pf wstr ≠ 0 → p.trim = p →
      ∀ (outW : List (Option DatasetView)) (i : ℕ) (bl : BlendedDataset),
        buildBlendedDatasetSplits env distInit rank built pf ⟨[wstr, p], bps, sm⟩ sizes =
          .ok outW →
        i < numSplits → outW.getD i none = some (.blended bl) →
        bl.weights = [1] ∧
        bl.datasets.map (fun o => o.map MegatronDataset.indices) =
          [((buildMegatronDatasetSplits env distInit rank built p sm sizes).getD i
            none).map MegatronDataset.indices]) := by
  constructor
  · simp [buildBlendedDatasetSplits]
  · intro hw htrim outW i bl hbuild hi hout
    have hgp : getPrefixesWeightsAndSizesForBlend pf [wstr, p] sizes =
        .ok ([p], [1], [sizes.map (fun (t : ℤ) => Int.ceil ((t : ℚ) * 1 * (1005 / 1000)))]) := by
      simp [getPrefixesWeightsAndSizesForBlend, blendPairs, normalize, htrim, div_self hw]
    simp only [buildBlendedDatasetSplits, ne_eq, reduceCtorEq, not_false_eq_true, if_true,
      List.length_cons, List.length_singleton, List.length_nil, Nat.reduceAdd, reduceIte, hgp,
      List.zip_cons_cons, List.zip_nil_left, List.zip_nil_right, List.map_cons, List.map_nil,
      splitsLoop] at hbuild
    have hbody := mapMRange_ok_getD _ none numSplits outW hbuild i hi
    rw [hout] at hbody
    simp only [splitsLoopBody, getD_map_range, if_pos hi] at hbody
    split at hbody
    next hsm =>
      rw [buildMegatron_getD_none env distInit rank built p sm _ i hi hsm] at hbody
      simp at hbody
    next be hsm =>
      rw [mixedNone_singleton, if_pos rfl, runGeneric_eq] at hbody
      by_cases hc : distInit = true ∧ built = false
      · rw [if_pos hc] at hbody
        simp at hbody
      · rw [if_neg hc] at hbody
        simp only [Option.map_some'] at hbody
        have hXbl := DatasetView.blended.inj (Option.some.inj (Except.ok.inj hbody))
        subst hXbl
        refine ⟨rfl, ?_⟩
        simp only [List.map_cons, List.map_nil]
        rw [buildMegatron_indices_indep env distInit rank built p sm _ sizes i]

/-- C9 witness: dataset `A` (4 elements), Train ratio `(0, 1)`, target 5 —
the weighted path's composite member has the same index range as the
degenerate path's unwrapped view. -/
theorem claim_C9_witness :
    (BlendedDataset.mk [some ⟨some ⟨"A", 4⟩, some (arangeInt 0 4), 6, 0⟩] [1] 6).weights =
      [1] ∧
    (BlendedDataset.mk [some ⟨some ⟨"A", 4⟩, some (arangeInt 0 4), 6, 0⟩] [1] 6).datasets.map
        (fun o => o.map MegatronDataset.indices) =
      [((buildMegatronDatasetSplits envFour false 0 true "A" [some (0, 1), none, none]
          [5, 0, 0]).getD 0 none).map MegatronDataset.indices] :=
  (claim_C9 envFour false 0 true parseDecimalNat [] [some (0, 1), none, none] [5, 0, 0]
      "A" "1").2
    (by with_unfolding_all decide) (by with_unfolding_all decide)
    [some (.blended ⟨[some ⟨some ⟨"A", 4⟩, some (arangeInt 0 4), 6, 0⟩], [1], 6⟩), none, none]
    0 ⟨[some ⟨some ⟨"A", 4⟩, some (arangeInt 0 4), 6, 0⟩], [1], 6⟩
    (by with_unfolding_all decide) (by decide) (by with_unfolding_all decide)

end Blended
